import Mathlib

/-!
Verification of the pikelet core semantic kernel
(src/pikelet/src/lang/core/semantics.rs) against its natural-language
specification.

The kernel is embedded shallowly.  Rust functions that can fail with a
panic (an unwrap of a missing value) or can diverge are modelled in an
exception monad over an explicit fuel parameter:

- an .unwrap() panic becomes the result Except.error EvalErr.panic;
- running out of fuel becomes Except.error EvalErr.fuel (evaluation of a
  core term need not terminate, so every recursive function consumes one
  unit of fuel on entry; any terminating Rust run is reproduced exactly by
  every sufficiently large fuel).

Machine integers (u32 universe levels and offsets) are modelled as Nat;
their checked additions never overflow on Nat, which is faithful to every
Rust run that does not hit the overflow panics the source marks as FIXME.

Data definitions that live in the crate module lang/core/mod.rs (terms,
constants, locals, index and level arithmetic, the global environment) are
not part of the provided sources; they are modelled from the spec and each
such definition carries a doc comment saying so.  Everything else is a
direct transcription of semantics.rs.
-/

set_option maxRecDepth 4000

namespace Pikelet

/-- Modelled from the spec: primitive constants of the core language
(spec 3.4).  The floating point variants of the source are omitted: no
claim treated here mentions a float constant, and IEEE equality is outside
this embedding. -/
inductive Constant
  | u8 (val : Nat)
  | u16 (val : Nat)
  | u32 (val : Nat)
  | u64 (val : Nat)
  | s8 (val : Int)
  | s16 (val : Int)
  | s32 (val : Int)
  | s64 (val : Int)
  | char (val : Char)
  | str (val : String)
deriving DecidableEq

/-- Modelled from the spec: the term syntax of the core language
(spec 3.2), as consumed by the match arms of eval_term in semantics.rs.
Terms carry no source locations in the kernel.  The constructor lcl is
TermData::Local (the word itself is a Lean keyword). -/
inductive Term
  | global (name : String)
  | lcl (index : Nat)
  | ann (term ty : Term)
  | typeType (level : Nat)
  | lift (term : Term) (offset : Nat)
  | functionType (nameHint : Option String) (inputType outputType : Term)
  | functionTerm (name : String) (output : Term)
  | functionElim (head input : Term)
  | recordType (entries : List (String × Term))
  | recordTerm (entries : List (String × Term))
  | recordElim (head : Term) (label : String)
  | arrayTerm (entries : List Term)
  | listTerm (entries : List Term)
  | constant (c : Constant)
  | error

/-- The head of a stuck value (semantics.rs, enum Head).  Equality is the
derived structural equality of the source (offsets of globals are
compared). -/
inductive Head
  | global (name : String) (offset : Nat)
  | lcl (level : Nat)
deriving DecidableEq

mutual

/-- Values of the core language (semantics.rs, enum Value). -/
inductive Value
  | stuck (head : Head) (spine : List Elim)
  | unstuck (head : Head) (spine : List Elim) (payload : LazyValue)
  | typeType (level : Nat)
  | functionType (nameHint : Option String) (inputType : Value)
      (outputClosure : FunctionClosure)
  | functionTerm (name : String) (outputClosure : FunctionClosure)
  | recordType (closure : RecordClosure)
  | recordTerm (closure : RecordClosure)
  | arrayTerm (entries : List Value)
  | listTerm (entries : List Value)
  | constant (c : Constant)
  | error

/-- Eliminators in a spine (semantics.rs, enum Elim). -/
inductive Elim
  | function (input : LazyValue)
  | record (label : String)

/-- Lazy values (semantics.rs, struct LazyValue with enum LazyInit).  The
ready variant is a cell that already holds its value (LazyValue::new or a
memoised cell); the other two variants are the pending initialisers.  The
pure model re-runs an initialiser at each force instead of memoising,
which yields the same value. -/
inductive LazyValue
  | ready (value : Value)
  | evalTerm (offset : Nat) (locals : List Value) (term : Term)
  | applyElim (head : LazyValue) (elim : Elim)

/-- Function closures (semantics.rs, struct FunctionClosure): a universe
offset, a snapshot of the locals, and the body term. -/
inductive FunctionClosure
  | mk (offset : Nat) (locals : List Value) (term : Term)

/-- Record closures (semantics.rs, struct RecordClosure): a universe
offset, a snapshot of the locals, and the labelled entry terms. -/
inductive RecordClosure
  | mk (offset : Nat) (locals : List Value) (entries : List (String × Term))

end

/-- Modelled from the spec: the local environment (spec 4.1).  The source
type Locals lives in lang/core/mod.rs, which is not among the provided
sources.  Its contract: an ordered sequence of values grown when entering
a binder, where get i returns the i-th entry counted from the innermost
end and size is the length.  We store the innermost entry first, so push
is cons, get is List.get? and size is List.length. -/
abbrev Locals := List Value

/-- Modelled from the spec: LocalIndex::to_level from lang/core/mod.rs
(not among the provided sources).  Spec 3.1: the invariant
index + level = size - 1 converts indices to levels, and the conversion
fails when the environment is too small. -/
def LocalIndex.to_level (index size : Nat) : Option Nat :=
  if index < size then some (size - 1 - index) else none

/-- Modelled from the spec: LocalLevel::to_index from lang/core/mod.rs
(not among the provided sources).  Spec 4.1: level.to_index size is
size - 1 - level when level < size and is undefined otherwise. -/
def LocalLevel.to_index (level size : Nat) : Option Nat :=
  if level < size then some (size - 1 - level) else none

/-- Modelled from the spec: the global environment (spec 3.5), a mapping
from names to a type term and an optional definition term. -/
abbrev Globals := List (String × (Term × Option Term))

/-- Modelled from the spec: lookup in the global environment. -/
def Globals.get (globals : Globals) (name : String) : Option (Term × Option Term) :=
  List.lookup name globals

/-- Outcome of a Rust panic (an unwrap of None) or of the fuel cutoff. -/
inductive EvalErr
  | panic
  | fuel
deriving DecidableEq

/-- Result monad of the embedding. -/
abbrev M (α : Type) := Except EvalErr α

/-- Unfolding mode for read-back (semantics.rs, enum Unfold). -/
inductive Unfold
  | never
  | always
deriving DecidableEq

mutual

/-- Transcribes eval_term of semantics.rs: evaluate a term into a value in
weak-head normal form, under a universe offset and a local environment. -/
def eval_term : Nat → Globals → Nat → Locals → Term → M Value
  | 0, _, _, _, _ => .error .fuel
  | fuel+1, globals, universe_offset, locals, term =>
    match term with
    | .global name =>
      match globals.get name with
      | some (_, some defn) =>
        .ok (.unstuck (.global name universe_offset) []
          (.evalTerm universe_offset locals defn))
      | some (_, none) => .ok (.stuck (.global name universe_offset) [])
      | none => .ok (.stuck (.global name universe_offset) [])
    | .lcl index =>
      match locals.get? index with
      | some value => .ok value
      | none =>
        match LocalIndex.to_level index locals.length with
        | some level => .ok (.stuck (.lcl level) [])
        | none => .error .panic
    | .ann term _ => eval_term fuel globals universe_offset locals term
    | .typeType level => .ok (.typeType (level + universe_offset))
    | .lift term offset =>
      eval_term fuel globals (universe_offset + offset) locals term
    | .recordType entries =>
      .ok (.recordType (.mk universe_offset locals entries))
    | .recordTerm entries =>
      .ok (.recordTerm (.mk universe_offset locals entries))
    | .recordElim head label => do
      let head ← eval_term fuel globals universe_offset locals head
      apply_record_elim fuel globals head label
    | .functionType nameHint inputType outputType => do
      let inputType ← eval_term fuel globals universe_offset locals inputType
      .ok (.functionType nameHint inputType (.mk universe_offset locals outputType))
    | .functionTerm name output =>
      .ok (.functionTerm name (.mk universe_offset locals output))
    | .functionElim head input => do
      let head ← eval_term fuel globals universe_offset locals head
      apply_function_elim fuel globals head (.evalTerm universe_offset locals input)
    | .arrayTerm entries => do
      let values ← eval_term_list fuel globals universe_offset locals entries
      .ok (.arrayTerm values)
    | .listTerm entries => do
      let values ← eval_term_list fuel globals universe_offset locals entries
      .ok (.listTerm values)
    | .constant c => .ok (.constant c)
    | .error => .ok .error

/-- Evaluates each entry of an array or list term in order (the
map over entry terms inside eval_term). -/
def eval_term_list : Nat → Globals → Nat → Locals → List Term → M (List Value)
  | 0, _, _, _, _ => .error .fuel
  | _+1, _, _, _, [] => .ok []
  | fuel+1, globals, universe_offset, locals, term :: rest => do
    let value ← eval_term fuel globals universe_offset locals term
    let values ← eval_term_list fuel globals universe_offset locals rest
    .ok (value :: values)

/-- Transcribes FunctionClosure::apply: push the input onto the captured
locals and evaluate the body under the captured offset. -/
def closure_apply : Nat → Globals → FunctionClosure → Value → M Value
  | 0, _, _, _ => .error .fuel
  | fuel+1, globals, .mk offset locals term, input =>
    eval_term fuel globals offset (input :: locals) term

/-- Transcribes LazyValue::force: run the pending initialiser. -/
def lazy_force : Nat → Globals → LazyValue → M Value
  | 0, _, _ => .error .fuel
  | _+1, _, .ready value => .ok value
  | fuel+1, globals, .evalTerm offset locals term =>
    eval_term fuel globals offset locals term
  | fuel+1, globals, .applyElim head (.record label) => do
    let headValue ← lazy_force fuel globals head
    apply_record_elim fuel globals headValue label
  | fuel+1, globals, .applyElim head (.function input) => do
    let headValue ← lazy_force fuel globals head
    apply_function_elim fuel globals headValue input

/-- Transcribes Value::force: repeatedly force unstuck payloads until a
value that is not unstuck is reached. -/
def value_force : Nat → Globals → Value → M Value
  | 0, _, _ => .error .fuel
  | fuel+1, globals, .unstuck _ _ payload => do
    let value ← lazy_force fuel globals payload
    value_force fuel globals value
  | _+1, _, value => .ok value

/-- Transcribes apply_record_elim of semantics.rs. -/
def apply_record_elim : Nat → Globals → Value → String → M Value
  | 0, _, _, _ => .error .fuel
  | fuel+1, globals, head_value, label =>
    match head_value with
    | .stuck head spine => .ok (.stuck head (spine ++ [.record label]))
    | .unstuck head spine payload =>
      .ok (.unstuck head (spine ++ [.record label])
        (.applyElim payload (.record label)))
    | .recordTerm (.mk offset locals entries) => do
      let result ← record_term_find_entry fuel globals offset locals entries label
      match result with
      | some value => .ok value
      | none => .ok .error
    | _ => .ok .error

/-- Transcribes RecordClosure::find_entry as used by apply_record_elim on
a record term: evaluate entries in order; return the value at a matching
label; push each non-matching value onto the environment and continue. -/
def record_term_find_entry :
    Nat → Globals → Nat → Locals → List (String × Term) → String → M (Option Value)
  | 0, _, _, _, _, _ => .error .fuel
  | _+1, _, _, _, [], _ => .ok none
  | fuel+1, globals, offset, locals, (entry_label, entry_term) :: rest, label => do
    let entry_value ← eval_term fuel globals offset locals entry_term
    if entry_label = label then .ok (some entry_value)
    else record_term_find_entry fuel globals offset (entry_value :: locals) rest label

/-- Transcribes apply_function_elim of semantics.rs. -/
def apply_function_elim : Nat → Globals → Value → LazyValue → M Value
  | 0, _, _, _ => .error .fuel
  | fuel+1, globals, head_value, input =>
    match head_value with
    | .stuck head spine => .ok (.stuck head (spine ++ [.function input]))
    | .unstuck head spine payload =>
      .ok (.unstuck head (spine ++ [.function input])
        (.applyElim payload (.function input)))
    | .functionTerm _ outputClosure => do
      let inputValue ← lazy_force fuel globals input
      closure_apply fuel globals outputClosure inputValue
    | _ => .ok .error

/-- Transcribes record_elim_type of semantics.rs: the type of the record
elimination of label out of a record type closure, with the environment
extended at each earlier entry.  Note the transcription is faithful to
the source: the callback passed to find_entry projects the searched-for
label out of head_value, not the current entry's label. -/
def record_elim_type : Nat → Globals → Value → String → RecordClosure → M (Option Value)
  | 0, _, _, _, _ => .error .fuel
  | fuel+1, globals, head_value, label, .mk offset locals entries =>
    record_elim_type_find fuel globals head_value label offset locals entries

/-- Transcribes RecordClosure::find_entry as used by record_elim_type:
evaluate each entry type; at a matching label return it; otherwise push
the projection produced by the callback and continue. -/
def record_elim_type_find :
    Nat → Globals → Value → String → Nat → Locals → List (String × Term) → M (Option Value)
  | 0, _, _, _, _, _, _ => .error .fuel
  | _+1, _, _, _, _, _, [] => .ok none
  | fuel+1, globals, head_value, label, offset, locals, (entry_label, entry_term) :: rest => do
    let entry_type ← eval_term fuel globals offset locals entry_term
    if entry_label = label then .ok (some entry_type)
    else do
      let projected ← apply_record_elim fuel globals head_value label
      record_elim_type_find fuel globals head_value label offset (projected :: locals) rest

end

mutual

/-- Transcribes read_back_stuck_value of semantics.rs: convert the head to
a term (panicking, like the source unwrap, when a local level is out of
range for the current size), then fold the spine over it. -/
def read_back_stuck_value : Nat → Globals → Nat → Unfold → Head → List Elim → M Term
  | 0, _, _, _, _, _ => .error .fuel
  | fuel+1, globals, local_size, unfold, head, spine =>
    match head with
    | .global name offset =>
      let headTerm := match offset with
        | 0 => Term.global name
        | _ => Term.lift (.global name) offset
      read_back_spine fuel globals local_size unfold headTerm spine
    | .lcl level =>
      match LocalLevel.to_index level local_size with
      | some index => read_back_spine fuel globals local_size unfold (.lcl index) spine
      | none => .error .panic
termination_by structural fuel _ _ _ _ _ => fuel

/-- The spine fold inside read_back_stuck_value. -/
def read_back_spine : Nat → Globals → Nat → Unfold → Term → List Elim → M Term
  | 0, _, _, _, _, _ => .error .fuel
  | _+1, _, _, _, head, [] => .ok head
  | fuel+1, globals, local_size, unfold, head, .function input :: rest => do
    let inputValue ← lazy_force fuel globals input
    let inputTerm ← read_back_value fuel globals local_size unfold inputValue
    read_back_spine fuel globals local_size unfold (.functionElim head inputTerm) rest
  | fuel+1, globals, local_size, unfold, head, .record label :: rest =>
    read_back_spine fuel globals local_size unfold (.recordElim head label) rest
termination_by structural fuel _ _ _ _ _ => fuel

/-- Transcribes read_back_value of semantics.rs. -/
def read_back_value : Nat → Globals → Nat → Unfold → Value → M Term
  | 0, _, _, _, _ => .error .fuel
  | fuel+1, globals, local_size, unfold, value =>
    match value with
    | .stuck head spine =>
      read_back_stuck_value fuel globals local_size unfold head spine
    | .unstuck head spine payload =>
      match unfold with
      | .never => read_back_stuck_value fuel globals local_size unfold head spine
      | .always => do
        let forced ← lazy_force fuel globals payload
        read_back_value fuel globals local_size unfold forced
    | .typeType level => .ok (.typeType level)
    | .functionType nameHint inputType outputClosure => do
      let inputTerm ← read_back_value fuel globals local_size unfold inputType
      let outputValue ← closure_apply fuel globals outputClosure (.stuck (.lcl local_size) [])
      let outputTerm ← read_back_value fuel globals (local_size + 1) unfold outputValue
      .ok (.functionType nameHint inputTerm outputTerm)
    | .functionTerm nameHint outputClosure => do
      let outputValue ← closure_apply fuel globals outputClosure (.stuck (.lcl local_size) [])
      let outputTerm ← read_back_value fuel globals (local_size + 1) unfold outputValue
      .ok (.functionTerm nameHint outputTerm)
    | .recordType (.mk offset locals entries) => do
      let termEntries ←
        read_back_record_entries fuel globals local_size unfold offset locals entries
      .ok (.recordType termEntries)
    | .recordTerm (.mk offset locals entries) => do
      let termEntries ←
        read_back_record_entries fuel globals local_size unfold offset locals entries
      .ok (.recordTerm termEntries)
    | .arrayTerm entries => do
      let termEntries ← read_back_value_list fuel globals local_size unfold entries
      .ok (.arrayTerm termEntries)
    | .listTerm entries => do
      let termEntries ← read_back_value_list fuel globals local_size unfold entries
      .ok (.listTerm termEntries)
    | .constant c => .ok (.constant c)
    | .error => .ok .error
termination_by structural fuel _ _ _ _ => fuel

/-- The iteration of RecordClosure::for_each_entry inside read_back_value:
read back each evaluated entry, then extend the captured environment with
a fresh local at the running size. -/
def read_back_record_entries :
    Nat → Globals → Nat → Unfold → Nat → Locals → List (String × Term) → M (List (String × Term))
  | 0, _, _, _, _, _, _ => .error .fuel
  | _+1, _, _, _, _, _, [] => .ok []
  | fuel+1, globals, local_size, unfold, offset, locals, (label, entry) :: rest => do
    let entryValue ← eval_term fuel globals offset locals entry
    let entryTerm ← read_back_value fuel globals local_size unfold entryValue
    let restEntries ← read_back_record_entries fuel globals (local_size + 1) unfold offset
      (Value.stuck (.lcl local_size) [] :: locals) rest
    .ok ((label, entryTerm) :: restEntries)
termination_by structural fuel _ _ _ _ _ _ => fuel

/-- The map over entries of array and list values inside read_back_value. -/
def read_back_value_list : Nat → Globals → Nat → Unfold → List Value → M (List Term)
  | 0, _, _, _, _ => .error .fuel
  | _+1, _, _, _, [] => .ok []
  | fuel+1, globals, local_size, unfold, value :: rest => do
    let term ← read_back_value fuel globals local_size unfold value
    let terms ← read_back_value_list fuel globals local_size unfold rest
    .ok (term :: terms)
termination_by structural fuel _ _ _ _ => fuel

end

mutual

/-- Transcribes is_equal_stuck_value of semantics.rs: heads must be equal
(structural equality, offsets of globals included) and spines must have
equal length and pairwise equal eliminations. -/
def is_equal_stuck_value :
    Nat → Globals → Nat → Head × List Elim → Head × List Elim → M Bool
  | 0, _, _, _, _ => .error .fuel
  | fuel+1, globals, local_size, (head0, spine0), (head1, spine1) =>
    if head0 ≠ head1 ∨ spine0.length ≠ spine1.length then .ok false
    else is_equal_spine fuel globals local_size spine0 spine1
termination_by structural fuel _ _ _ _ => fuel

/-- The pairwise elimination comparison loop inside is_equal_stuck_value:
function inputs are forced and compared with is_equal, record labels are
compared as strings. -/
def is_equal_spine : Nat → Globals → Nat → List Elim → List Elim → M Bool
  | 0, _, _, _, _ => .error .fuel
  | _+1, _, _, [], [] => .ok true
  | fuel+1, globals, local_size, .function input0 :: rest0, .function input1 :: rest1 => do
    let value0 ← lazy_force fuel globals input0
    let value1 ← lazy_force fuel globals input1
    let eq ← is_equal fuel globals local_size value0 value1
    if eq then is_equal_spine fuel globals local_size rest0 rest1 else .ok false
  | fuel+1, globals, local_size, .record label0 :: rest0, .record label1 :: rest1 =>
    if label0 = label1 then is_equal_spine fuel globals local_size rest0 rest1
    else .ok false
  | _+1, _, _, _, _ => .ok false
termination_by structural fuel _ _ _ _ => fuel

/-- Transcribes is_equal of semantics.rs: computational equality of two
values evaluated against a local environment of the given size.  The
match arms are in the order of the source. -/
def is_equal : Nat → Globals → Nat → Value → Value → M Bool
  | 0, _, _, _, _ => .error .fuel
  | fuel+1, globals, local_size, value0, value1 =>
    match value0, value1 with
    | .stuck head0 spine0, .stuck head1 spine1 =>
      is_equal_stuck_value fuel globals local_size (head0, spine0) (head1, spine1)
    | .unstuck head0 spine0 payload0, .unstuck head1 spine1 payload1 => do
      let eq ← is_equal_stuck_value fuel globals local_size (head0, spine0) (head1, spine1)
      if eq then .ok true
      else do
        let value0 ← lazy_force fuel globals payload0
        let value1 ← lazy_force fuel globals payload1
        is_equal fuel globals local_size value0 value1
    | .unstuck _ _ payload0, value1 => do
      let value0 ← lazy_force fuel globals payload0
      is_equal fuel globals local_size value0 value1
    | value0, .unstuck _ _ payload1 => do
      let value1 ← lazy_force fuel globals payload1
      is_equal fuel globals local_size value0 value1
    | .typeType level0, .typeType level1 => .ok (decide (level0 = level1))
    | .functionType _ inputType0 outputClosure0,
      .functionType _ inputType1 outputClosure1 => do
      let inputEq ← is_equal fuel globals local_size inputType1 inputType0
      if inputEq then do
        let output0 ← closure_apply fuel globals outputClosure0 (.stuck (.lcl local_size) [])
        let output1 ← closure_apply fuel globals outputClosure1 (.stuck (.lcl local_size) [])
        is_equal fuel globals (local_size + 1) output0 output1
      else .ok false
    | .functionTerm _ outputClosure0, .functionTerm _ outputClosure1 => do
      let output0 ← closure_apply fuel globals outputClosure0 (.stuck (.lcl local_size) [])
      let output1 ← closure_apply fuel globals outputClosure1 (.stuck (.lcl local_size) [])
      is_equal fuel globals (local_size + 1) output0 output1
    | .recordType (.mk offset0 locals0 entries0),
      .recordType (.mk offset1 locals1 entries1) =>
      if entries0.length ≠ entries1.length then .ok false
      else is_equal_record_entries fuel globals local_size offset0 offset1
        locals0 locals1 entries0 entries1
    | .recordTerm (.mk offset0 locals0 entries0),
      .recordTerm (.mk offset1 locals1 entries1) =>
      if entries0.length ≠ entries1.length then .ok false
      else is_equal_record_entries fuel globals local_size offset0 offset1
        locals0 locals1 entries0 entries1
    | .arrayTerm entries0, .arrayTerm entries1 =>
      if entries0.length ≠ entries1.length then .ok false
      else is_equal_values fuel globals local_size entries0 entries1
    | .listTerm entries0, .listTerm entries1 =>
      if entries0.length ≠ entries1.length then .ok false
      else is_equal_values fuel globals local_size entries0 entries1
    | .constant c0, .constant c1 => .ok (decide (c0 = c1))
    | .error, _ => .ok true
    | _, .error => .ok true
    | _, _ => .ok false
termination_by structural fuel _ _ _ _ => fuel

/-- The entry loop shared by the record type and record term arms of
is_equal: labels in order, entries evaluated in their own captured
environments and compared, then both environments extended with a common
fresh local at the running size. -/
def is_equal_record_entries :
    Nat → Globals → Nat → Nat → Nat → Locals → Locals →
    List (String × Term) → List (String × Term) → M Bool
  | 0, _, _, _, _, _, _, _, _ => .error .fuel
  | _+1, _, _, _, _, _, _, [], [] => .ok true
  | fuel+1, globals, local_size, offset0, offset1, locals0, locals1,
      (label0, entry0) :: rest0, (label1, entry1) :: rest1 =>
    if label0 ≠ label1 then .ok false
    else do
      let entryValue0 ← eval_term fuel globals offset0 locals0 entry0
      let entryValue1 ← eval_term fuel globals offset1 locals1 entry1
      let eq ← is_equal fuel globals local_size entryValue0 entryValue1
      if eq then
        is_equal_record_entries fuel globals (local_size + 1) offset0 offset1
          (Value.stuck (.lcl local_size) [] :: locals0)
          (Value.stuck (.lcl local_size) [] :: locals1) rest0 rest1
      else .ok false
  | _+1, _, _, _, _, _, _, _, _ => .ok false
termination_by structural fuel _ _ _ _ _ _ _ _ => fuel

/-- The pointwise comparison of array and list entries inside is_equal. -/
def is_equal_values : Nat → Globals → Nat → List Value → List Value → M Bool
  | 0, _, _, _, _ => .error .fuel
  | _+1, _, _, [], [] => .ok true
  | fuel+1, globals, local_size, value0 :: rest0, value1 :: rest1 => do
    let eq ← is_equal fuel globals local_size value0 value1
    if eq then is_equal_values fuel globals local_size rest0 rest1 else .ok false
  | _+1, _, _, _, _ => .ok false
termination_by structural fuel _ _ _ _ => fuel

/-- Transcribes is_subtype of semantics.rs: cumulative subtyping between
type values.  The match arms are in the order of the source. -/
def is_subtype : Nat → Globals → Nat → Value → Value → M Bool
  | 0, _, _, _, _ => .error .fuel
  | fuel+1, globals, local_size, value0, value1 =>
    match value0, value1 with
    | .stuck head0 spine0, .stuck head1 spine1 =>
      is_equal_stuck_value fuel globals local_size (head0, spine0) (head1, spine1)
    | .unstuck head0 spine0 payload0, .unstuck head1 spine1 payload1 => do
      let eq ← is_equal_stuck_value fuel globals local_size (head0, spine0) (head1, spine1)
      if eq then .ok true
      else do
        let value0 ← lazy_force fuel globals payload0
        let value1 ← lazy_force fuel globals payload1
        is_subtype fuel globals local_size value0 value1
    | .unstuck _ _ payload0, value1 => do
      let value0 ← lazy_force fuel globals payload0
      is_subtype fuel globals local_size value0 value1
    | value0, .unstuck _ _ payload1 => do
      let value1 ← lazy_force fuel globals payload1
      is_subtype fuel globals local_size value0 value1
    | .typeType level0, .typeType level1 => .ok (decide (level0 ≤ level1))
    | .functionType _ inputType0 outputClosure0,
      .functionType _ inputType1 outputClosure1 => do
      let inputSub ← is_subtype fuel globals local_size inputType1 inputType0
      if inputSub then do
        let output0 ← closure_apply fuel globals outputClosure0 (.stuck (.lcl local_size) [])
        let output1 ← closure_apply fuel globals outputClosure1 (.stuck (.lcl local_size) [])
        is_subtype fuel globals (local_size + 1) output0 output1
      else .ok false
    | .recordType (.mk offset0 locals0 entries0),
      .recordType (.mk offset1 locals1 entries1) =>
      if entries0.length ≠ entries1.length then .ok false
      else is_subtype_record_entries fuel globals local_size offset0 offset1
        locals0 locals1 entries0 entries1
    | .error, _ => .ok true
    | _, .error => .ok true
    | _, _ => .ok false
termination_by structural fuel _ _ _ _ => fuel

/-- The record type entry loop inside is_subtype. -/
def is_subtype_record_entries :
    Nat → Globals → Nat → Nat → Nat → Locals → Locals →
    List (String × Term) → List (String × Term) → M Bool
  | 0, _, _, _, _, _, _, _, _ => .error .fuel
  | _+1, _, _, _, _, _, _, [], [] => .ok true
  | fuel+1, globals, local_size, offset0, offset1, locals0, locals1,
      (label0, entry0) :: rest0, (label1, entry1) :: rest1 =>
    if label0 ≠ label1 then .ok false
    else do
      let entryValue0 ← eval_term fuel globals offset0 locals0 entry0
      let entryValue1 ← eval_term fuel globals offset1 locals1 entry1
      let sub ← is_subtype fuel globals local_size entryValue0 entryValue1
      if sub then
        is_subtype_record_entries fuel globals (local_size + 1) offset0 offset1
          (Value.stuck (.lcl local_size) [] :: locals0)
          (Value.stuck (.lcl local_size) [] :: locals1) rest0 rest1
      else .ok false
  | _+1, _, _, _, _, _, _, _, _ => .ok false
termination_by structural fuel _ _ _ _ _ _ _ _ => fuel

end

/-- Tests whether a value is of the glued (unstuck) variant. -/
def Value.isGlued : Value → Bool
  | .unstuck _ _ _ => true
  | _ => false

/-- First-order values: stuck values whose spine holds only record
projections, type universes, arrays and lists of first-order values,
constants, and the error sentinel.  On these, equality needs neither
closure evaluation nor thunk forcing. -/
inductive FirstOrder : Value → Prop
  | stuck (head : Head) (spine : List Elim)
      (h : ∀ e ∈ spine, ∃ label, e = Elim.record label) :
      FirstOrder (.stuck head spine)
  | typeType (level : Nat) : FirstOrder (.typeType level)
  | arrayTerm (entries : List Value) (h : ∀ v ∈ entries, FirstOrder v) :
      FirstOrder (.arrayTerm entries)
  | listTerm (entries : List Value) (h : ∀ v ∈ entries, FirstOrder v) :
      FirstOrder (.listTerm entries)
  | constant (c : Constant) : FirstOrder (.constant c)
  | error : FirstOrder .error

mutual

/-- Fuel sufficient for the self-comparison of a first-order value. -/
def vbound : Value → Nat
  | .stuck _ spine => spine.length + 2
  | .unstuck _ _ _ => 1
  | .typeType _ => 1
  | .functionType _ _ _ => 1
  | .functionTerm _ _ => 1
  | .recordType _ => 1
  | .recordTerm _ => 1
  | .arrayTerm entries => vboundList entries + 1
  | .listTerm entries => vboundList entries + 1
  | .constant _ => 1
  | .error => 1

/-- Fuel sufficient for the pointwise self-comparison of a value list. -/
def vboundList : List Value → Nat
  | [] => 1
  | value :: rest => max (vbound value) (vboundList rest) + 1

end

/-- Global environment of the dependent-projection scenario: abstract
globals U32, U8 and Array without definitions. -/
def c1Globals : Globals :=
  [("U32", (.typeType 0, none)), ("U8", (.typeType 0, none)),
   ("Array", (.functionType none (.global "U32")
     (.functionType none (.typeType 0) (.typeType 0)), none))]

/-- The record type closure of the entries of
the record type with fields len of type U32 and data of type
Array len U8 (the type of the field len is referred to by index 0). -/
def c1RecordClosure : RecordClosure :=
  .mk 0 [] [("len", .global "U32"),
            ("data", .functionElim (.functionElim (.global "Array") (.lcl 0)) (.global "U8"))]

/-- The head value of the dependent-projection scenario: the record term
with len equal to the constant 3 and data equal to the array 1, 2, 3. -/
def c1Head : Value :=
  .recordTerm (.mk 0 []
    [("len", .constant (.u32 3)),
     ("data", .arrayTerm [.constant (.u8 1), .constant (.u8 2), .constant (.u8 3)])])

/-- What record_elim_type actually produces for the field data of the
scenario, read back: the type Array applied to the array 1, 2, 3 and U8. -/
def c1ActualTerm : Term :=
  .functionElim (.functionElim (.global "Array")
    (.arrayTerm [.constant (.u8 1), .constant (.u8 2), .constant (.u8 3)])) (.global "U8")

/-- What the claim says record_elim_type produces for the field data of
the scenario: the type Array applied to the constant 3 and U8. -/
def c1ExpectedTerm : Term :=
  .functionElim (.functionElim (.global "Array") (.constant (.u32 3))) (.global "U8")

/-- A stuck neutral of function type: the sole local variable, at level 0
in an environment of size one. -/
def c2f : Value := .stuck (.lcl 0) []

/-- The value of the eta expansion of c2f: a function term whose closure
captured the environment holding c2f and whose body applies the variable
bound outside (index 1) to the input (index 0). -/
def c2Lam : Value := .functionTerm "x" (.mk 0 [c2f] (.functionElim (.lcl 1) (.lcl 0)))

/-- The identity function term. -/
def c2Id : Value := .functionTerm "y" (.mk 0 [] (.lcl 0))

/-- The value of the eta expansion of the identity function term. -/
def c2IdEta : Value :=
  .functionTerm "x" (.mk 0 [] (.functionElim (.functionTerm "y" (.lcl 0)) (.lcl 0)))

/-- A concrete function term for the reflexivity scenario. -/
def c5Fun : Value := .functionTerm "x" (.mk 0 [] (.lcl 0))

/-- A concrete record term for the reflexivity scenario. -/
def c5Rec : Value := .recordTerm (.mk 0 [] [("a", .constant (.u8 1))])

/-- Global environment of the glued short-circuit scenario: a global id
defined as the identity function. -/
def c7Globals : Globals :=
  [("id", (.functionType none (.typeType 0) (.typeType 0),
    some (.functionTerm "x" (.lcl 0))))]

/-- The application of the global id to the constant 7. -/
def c7App : Term := .functionElim (.global "id") (.constant (.u8 7))

/-- An unstuck value whose payload panics when forced (its thunk
evaluates an escaped local in an empty environment): comparing it with
itself can only succeed if the payload is never forced. -/
def c7Poisoned : Value :=
  .unstuck (.global "id" 0) [.function (.ready (.constant (.u8 7)))]
    (.evalTerm 0 [] (.lcl 0))

/-- C1: on the record type with fields len of type U32 and data of type
Array len U8, and the head value with len equal to 3 and data equal to
the array 1, 2, 3, record_elim_type of the label data produces the type
Array applied to the array 1, 2, 3 (the projection of the searched-for
label data was substituted for the prior field len), not the type Array
applied to the constant 3 that the claim and the spec describe: the
source passes the searched-for label, rather than the current entry's
label, to apply_record_elim when extending the environment. -/
theorem record_elim_type_uses_searched_label :
    ((record_elim_type 40 c1Globals c1Head "data" c1RecordClosure) >>= fun result =>
      match result with
      | some ty => read_back_value 40 c1Globals 0 .always ty
      | none => (.error .panic : M Term)) = .ok c1ActualTerm
    ∧ c1ActualTerm ≠ c1ExpectedTerm := by
  constructor
  · rfl
  · intro h
    simp only [c1ActualTerm, c1ExpectedTerm, Term.functionElim.injEq] at h
    exact Term.noConfusion h.1.2

/-- C2 (counterexample): a stuck neutral of function type, the sole local
variable in an environment of size one, is not judged equal to its own
eta expansion: is_equal returns false, where the claim requires true. -/
theorem eta_fails_for_stuck_neutral : is_equal 20 [] 1 c2f c2Lam = .ok false := rfl

/-- C2 (amended): is_equal implements eta-style comparison only between
two function term values: a stuck (or glued-but-examined) neutral
compared with a function term always falls through to the final
catch-all and yields false, while the eta law does hold when the
compared values are both function terms, as on the identity function
and its eta expansion. -/
theorem eta_equality_scope :
    (∀ fuel globals local_size head spine name closure,
      is_equal (fuel+1) globals local_size (.stuck head spine)
        (.functionTerm name closure) = .ok false)
    ∧ is_equal 20 [] 0 c2Id c2IdEta = .ok true := by
  exact ⟨fun _ _ _ _ _ _ _ => rfl, rfl⟩

/-- C3 (counterexample): two stuck globals with the same name, empty
spines and universe offsets 0 and 1 are judged unequal by is_equal,
where the claim requires them to be judged equal. -/
theorem stuck_global_offset_mismatch_not_equal :
    is_equal 5 [] 0 (.stuck (.global "x" 0) []) (.stuck (.global "x" 1) []) = .ok false := rfl

/-- C3 (amended): the universe offset is part of the derived structural
equality on heads, so is_equal on two stuck globals with the same name
but different offsets returns false regardless of the spines. -/
theorem stuck_global_offsets_compared :
    ∀ fuel globals local_size name offset0 offset1 spine0 spine1,
      offset0 ≠ offset1 →
      is_equal (fuel+2) globals local_size (.stuck (.global name offset0) spine0)
        (.stuck (.global name offset1) spine1) = .ok false := by
  intro fuel globals local_size name offset0 offset1 spine0 spine1 h
  simp [is_equal, is_equal_stuck_value, h]

/-- Witness for C3 at name x, offsets 0 and 1, empty spines. -/
theorem stuck_global_offsets_compared_witness :
    is_equal 2 [] 0 (.stuck (.global "x" 0) []) (.stuck (.global "x" 1) []) = .ok false :=
  stuck_global_offsets_compared 0 [] 0 "x" 0 1 [] [] (by decide)

/-- C8: universe offsets compose additively under evaluation: lifting by
a and then by b evaluates exactly like a single lift by a + b (the outer
lift costs one unit of fuel), and concretely lifting the type of types
at level 0 by 2 evaluates to the type of types at level 2. -/
theorem lift_offsets_compose :
    (∀ fuel globals universe_offset (locals : Locals) t a b,
      eval_term (fuel+2) globals universe_offset locals (.lift (.lift t a) b) =
        eval_term (fuel+1) globals universe_offset locals (.lift t (a+b)))
    ∧ eval_term 2 [] 0 [] (.lift (.typeType 0) 2) = .ok (.typeType 2) := by
  constructor
  · intro fuel globals universe_offset locals t a b
    show eval_term (fuel+1) globals (universe_offset + b) locals (.lift t a) = _
    have h : universe_offset + b + a = universe_offset + (a + b) := by omega
    simp only [eval_term, h]
  · rfl

/-- C4 (counterexample): reading back a stuck value whose head is the
local level 0 in an environment of size 0 panics (the source unwraps the
failed level-to-index conversion); it does not yield the Error term the
claim describes. -/
theorem read_back_escaped_level_counterexample :
    read_back_value 5 [] 0 .always (.stuck (.lcl 0) []) = .error .panic := rfl

/-- C4 (amended): read-back of a stuck head holding an out-of-range
local level panics in every unfolding mode, and read-back of an unstuck
value under the Always mode never touches the stored head: it forces the
payload and reads the forced value back. -/
theorem read_back_escaped_level_panics :
    (∀ fuel globals local_size level spine mode, local_size ≤ level →
      read_back_value (fuel+2) globals local_size mode (.stuck (.lcl level) spine) =
        .error .panic)
    ∧ (∀ fuel globals local_size head spine payload,
      read_back_value (fuel+1) globals local_size .always (.unstuck head spine payload) =
        lazy_force fuel globals payload >>= read_back_value fuel globals local_size .always) := by
  constructor
  · intro fuel globals local_size level spine mode h
    show read_back_stuck_value (fuel+1) globals local_size mode (.lcl level) spine = _
    simp [read_back_stuck_value, LocalLevel.to_index, Nat.not_lt.mpr h]
  · intro fuel globals local_size head spine payload
    rfl

/-- Witness for C4 at level 1, size 1, mode Never. -/
theorem read_back_escaped_level_panics_witness :
    read_back_value 5 [] 1 .never (.stuck (.lcl 1) []) = .error .panic :=
  read_back_escaped_level_panics.1 3 [] 1 1 [] .never (by decide)

/-- C9 (counterexample): evaluating the local variable of index 0 in an
empty environment panics (the source unwraps the failed index-to-level
conversion); it does not return a stuck value as the claim describes. -/
theorem local_escape_panics : eval_term 5 [] 0 [] (.lcl 0) = .error .panic := rfl

/-- C9 (amended): eval_term on a local variable returns the entry of the
environment at its index, counted from the innermost end, when the index
is in range; when the index escapes the environment, it panics rather
than returning a stuck value (the level size - 1 - index the claim
mentions does not exist for an index at or beyond the size). -/
theorem local_variable_lookup :
    (∀ fuel globals universe_offset (locals : Locals) index value,
      locals.get? index = some value →
      eval_term (fuel+1) globals universe_offset locals (.lcl index) = .ok value)
    ∧ (∀ fuel globals universe_offset (locals : Locals) index,
      locals.get? index = none →
      eval_term (fuel+1) globals universe_offset locals (.lcl index) = .error .panic) := by
  constructor
  · intro fuel globals universe_offset locals index value h
    rw [List.get?_eq_getElem?] at h
    simp [eval_term, h]
  · intro fuel globals universe_offset locals index h
    have hlen : locals.length ≤ index := List.get?_eq_none.mp h
    rw [List.get?_eq_getElem?] at h
    simp [eval_term, h, LocalIndex.to_level, Nat.not_lt.mpr hlen]

/-- Witness for C9 on a one-entry environment at index 0. -/
theorem local_variable_lookup_witness :
    eval_term 1 [] 0 [Value.error] (.lcl 0) = .ok .error :=
  local_variable_lookup.1 0 [] 0 [Value.error] 0 .error rfl

/-- C10: forcing a value never returns a value of the unstuck (glued)
variant: whenever value_force succeeds, the result is not glued. -/
theorem value_force_never_unstuck :
    ∀ fuel globals v w, value_force fuel globals v = .ok w → w.isGlued = false := by
  intro fuel
  induction fuel with
  | zero =>
    intro globals v w h
    exact Except.noConfusion h
  | succ fuel ih =>
    intro globals v w h
    cases v
    case unstuck head spine payload =>
      have h' : (lazy_force fuel globals payload >>= fun value =>
          value_force fuel globals value) = .ok w := h
      cases hl : lazy_force fuel globals payload with
      | error e => rw [hl] at h'; exact Except.noConfusion h'
      | ok u => rw [hl] at h'; exact ih globals u w h'
    all_goals exact (Except.ok.inj h) ▸ rfl

/-- Witness for C10 on a constant. -/
theorem value_force_never_unstuck_witness :
    Value.isGlued (.constant (.u8 0)) = false :=
  value_force_never_unstuck 1 [] (.constant (.u8 0)) (.constant (.u8 0)) rfl

/-- C7: when the stored heads and spines of two unstuck values compare
equal, is_equal short-circuits to true for arbitrary payloads, which are
never forced; concretely, with the global id defined as the identity
function, comparing the value of id applied to 7 with itself yields true,
and comparing a glued value whose payload would panic if forced with
itself still yields true. -/
theorem unstuck_short_circuit :
    (∀ fuel globals local_size head0 spine0 head1 spine1 payload0 payload1,
      is_equal_stuck_value fuel globals local_size (head0, spine0) (head1, spine1) = .ok true →
      is_equal (fuel+1) globals local_size (.unstuck head0 spine0 payload0)
        (.unstuck head1 spine1 payload1) = .ok true)
    ∧ ((do
        let v0 ← eval_term 20 c7Globals 0 [] c7App
        let v1 ← eval_term 20 c7Globals 0 [] c7App
        is_equal 20 c7Globals 0 v0 v1 : M Bool) = .ok true)
    ∧ is_equal 4 c7Globals 0 c7Poisoned c7Poisoned = .ok true
    ∧ lazy_force 4 c7Globals (.evalTerm 0 [] (.lcl 0)) = .error .panic := by
  refine ⟨?_, rfl, rfl, rfl⟩
  intro fuel globals local_size head0 spine0 head1 spine1 payload0 payload1 h
  have h' : is_equal (fuel+1) globals local_size (.unstuck head0 spine0 payload0)
      (.unstuck head1 spine1 payload1)
      = (is_equal_stuck_value fuel globals local_size (head0, spine0) (head1, spine1) >>=
        fun eq => if eq then (.ok true : M Bool)
        else do
          let value0 ← lazy_force fuel globals payload0
          let value1 ← lazy_force fuel globals payload1
          is_equal fuel globals local_size value0 value1) := rfl
  rw [h', h]
  rfl

/-- Witness for C7: two glued values sharing the head of a stuck global
and an empty spine compare equal whatever their payloads. -/
theorem unstuck_short_circuit_witness :
    is_equal 4 [] 0 (.unstuck (.global "g" 0) [] (.ready .error))
      (.unstuck (.global "g" 0) [] (.ready .error)) = .ok true :=
  unstuck_short_circuit.1 3 [] 0 (.global "g" 0) [] (.global "g" 0) []
    (.ready .error) (.ready .error) rfl

/-- On a value that is not glued, comparison with the error sentinel
reaches the error arms of is_equal and is_subtype directly. -/
theorem error_immediate (fuel : Nat) (globals : Globals) (local_size : Nat) (v : Value)
    (h : v.isGlued = false) :
    is_equal (fuel+1) globals local_size .error v = .ok true ∧
    is_equal (fuel+1) globals local_size v .error = .ok true ∧
    is_subtype (fuel+1) globals local_size .error v = .ok true ∧
    is_subtype (fuel+1) globals local_size v .error = .ok true := by
  cases v <;> first
    | exact ⟨rfl, rfl, rfl, rfl⟩
    | (rename_i closure; cases closure; exact ⟨rfl, rfl, rfl, rfl⟩)
    | simp [Value.isGlued] at h

/-- Comparison with the error sentinel can force a glued payload (and so
run out of fuel, or propagate a panic), but it can never return false. -/
theorem error_never_false :
    ∀ fuel globals local_size (v : Value),
      is_equal fuel globals local_size .error v ≠ .ok false ∧
      is_equal fuel globals local_size v .error ≠ .ok false ∧
      is_subtype fuel globals local_size .error v ≠ .ok false ∧
      is_subtype fuel globals local_size v .error ≠ .ok false := by
  intro fuel
  induction fuel with
  | zero =>
    intro globals local_size v
    exact ⟨fun h => Except.noConfusion h, fun h => Except.noConfusion h,
      fun h => Except.noConfusion h, fun h => Except.noConfusion h⟩
  | succ fuel ih =>
    intro globals local_size v
    cases v
    case unstuck head spine payload =>
      refine ⟨?_, ?_, ?_, ?_⟩
      · intro h
        have h' : (lazy_force fuel globals payload >>= fun value1 =>
            is_equal fuel globals local_size .error value1) = .ok false := h
        cases hl : lazy_force fuel globals payload with
        | error e => rw [hl] at h'; exact Except.noConfusion h'
        | ok w => rw [hl] at h'; exact (ih globals local_size w).1 h'
      · intro h
        have h' : (lazy_force fuel globals payload >>= fun value0 =>
            is_equal fuel globals local_size value0 .error) = .ok false := h
        cases hl : lazy_force fuel globals payload with
        | error e => rw [hl] at h'; exact Except.noConfusion h'
        | ok w => rw [hl] at h'; exact (ih globals local_size w).2.1 h'
      · intro h
        have h' : (lazy_force fuel globals payload >>= fun value1 =>
            is_subtype fuel globals local_size .error value1) = .ok false := h
        cases hl : lazy_force fuel globals payload with
        | error e => rw [hl] at h'; exact Except.noConfusion h'
        | ok w => rw [hl] at h'; exact (ih globals local_size w).2.2.1 h'
      · intro h
        have h' : (lazy_force fuel globals payload >>= fun value0 =>
            is_subtype fuel globals local_size value0 .error) = .ok false := h
        cases hl : lazy_force fuel globals payload with
        | error e => rw [hl] at h'; exact Except.noConfusion h'
        | ok w => rw [hl] at h'; exact (ih globals local_size w).2.2.2 h'
    case recordType closure =>
      cases closure
      exact ⟨fun h => Bool.noConfusion (Except.ok.inj h),
        fun h => Bool.noConfusion (Except.ok.inj h),
        fun h => Bool.noConfusion (Except.ok.inj h),
        fun h => Bool.noConfusion (Except.ok.inj h)⟩
    case recordTerm closure =>
      cases closure
      exact ⟨fun h => Bool.noConfusion (Except.ok.inj h),
        fun h => Bool.noConfusion (Except.ok.inj h),
        fun h => Bool.noConfusion (Except.ok.inj h),
        fun h => Bool.noConfusion (Except.ok.inj h)⟩
    all_goals
      exact ⟨fun h => Bool.noConfusion (Except.ok.inj h),
        fun h => Bool.noConfusion (Except.ok.inj h),
        fun h => Bool.noConfusion (Except.ok.inj h),
        fun h => Bool.noConfusion (Except.ok.inj h)⟩

/-- C6: the error sentinel absorbs both conversion checks: comparing any
value with Error can never return false (it returns true, runs out of
fuel in this model, or propagates a panic from forcing a glued payload),
and whenever the value is not glued, all four comparisons return true
outright. -/
theorem error_absorbing :
    ∀ fuel globals local_size (v : Value),
      (is_equal fuel globals local_size .error v ≠ .ok false ∧
       is_equal fuel globals local_size v .error ≠ .ok false ∧
       is_subtype fuel globals local_size .error v ≠ .ok false ∧
       is_subtype fuel globals local_size v .error ≠ .ok false) ∧
      (v.isGlued = false →
       is_equal (fuel+1) globals local_size .error v = .ok true ∧
       is_equal (fuel+1) globals local_size v .error = .ok true ∧
       is_subtype (fuel+1) globals local_size .error v = .ok true ∧
       is_subtype (fuel+1) globals local_size v .error = .ok true) :=
  fun fuel globals local_size v =>
    ⟨error_never_false fuel globals local_size v,
     fun h => error_immediate fuel globals local_size v h⟩

/-- Witness for C6 on the type of types at level 0. -/
theorem error_absorbing_witness :
    is_equal 3 [] 0 .error (.typeType 0) = .ok true :=
  ((error_absorbing 2 [] 0 (.typeType 0)).2 rfl).1

/-- A spine of record projections compares equal to itself. -/
theorem is_equal_spine_refl :
    ∀ (spine : List Elim) (fuel : Nat) (globals : Globals) (local_size : Nat),
      (∀ e ∈ spine, ∃ label, e = Elim.record label) → spine.length < fuel →
      is_equal_spine fuel globals local_size spine spine = .ok true := by
  intro spine
  induction spine with
  | nil =>
    intro fuel globals local_size _ hf
    cases fuel with
    | zero => omega
    | succ f => rfl
  | cons e rest ih =>
    intro fuel globals local_size h hf
    obtain ⟨label, rfl⟩ := h e (List.mem_cons_self e rest)
    cases fuel with
    | zero => simp at hf
    | succ f =>
      have step : is_equal_spine (f+1) globals local_size
          (.record label :: rest) (.record label :: rest)
          = if label = label then is_equal_spine f globals local_size rest rest
            else .ok false := rfl
      rw [step, if_pos rfl]
      have hlen : rest.length < f := by simp at hf; omega
      exact ih f globals local_size (fun e he => h e (List.mem_cons_of_mem _ he)) hlen

/-- A stuck value whose spine holds only record projections compares
equal to itself. -/
theorem is_equal_stuck_value_refl :
    ∀ (head : Head) (spine : List Elim) (fuel : Nat) (globals : Globals) (local_size : Nat),
      (∀ e ∈ spine, ∃ label, e = Elim.record label) → spine.length + 1 < fuel →
      is_equal_stuck_value fuel globals local_size (head, spine) (head, spine) = .ok true := by
  intro head spine fuel globals local_size h hf
  cases fuel with
  | zero => omega
  | succ f =>
    have step : is_equal_stuck_value (f+1) globals local_size (head, spine) (head, spine)
        = if head ≠ head ∨ spine.length ≠ spine.length then (.ok false : M Bool)
          else is_equal_spine f globals local_size spine spine := rfl
    rw [step, if_neg (by simp)]
    exact is_equal_spine_refl spine f globals local_size h (by omega)

/-- Entries of an array or list value that each compare equal to
themselves make the entry list compare equal to itself. -/
theorem is_equal_values_refl :
    ∀ (entries : List Value) (globals : Globals) (local_size : Nat),
      (∀ v ∈ entries, ∀ fuel globals' local_size', vbound v < fuel →
        is_equal fuel globals' local_size' v v = .ok true) →
      ∀ fuel, vboundList entries < fuel →
      is_equal_values fuel globals local_size entries entries = .ok true := by
  intro entries
  induction entries with
  | nil =>
    intro globals local_size _ fuel hf
    cases fuel with
    | zero => simp [vboundList] at hf
    | succ f => rfl
  | cons v rest ih =>
    intro globals local_size h fuel hf
    have hb : vboundList (v :: rest) = max (vbound v) (vboundList rest) + 1 := by
      simp [vboundList]
    rw [hb] at hf
    cases fuel with
    | zero => omega
    | succ f =>
      have hv : vbound v < f := by omega
      have hr : vboundList rest < f := by omega
      have h1 : is_equal f globals local_size v v = .ok true :=
        h v (List.mem_cons_self v rest) f globals local_size hv
      have step : is_equal_values (f+1) globals local_size (v :: rest) (v :: rest)
          = (is_equal f globals local_size v v >>= fun eq =>
            if eq then is_equal_values f globals local_size rest rest
            else .ok false) := rfl
      rw [step, h1]
      exact ih globals local_size (fun u hu => h u (List.mem_cons_of_mem _ hu)) f hr

/-- Every first-order value compares equal to itself once the fuel
exceeds its bound. -/
theorem is_equal_refl_first_order :
    ∀ v : Value, FirstOrder v → ∀ fuel globals local_size, vbound v < fuel →
      is_equal fuel globals local_size v v = .ok true := by
  intro v hv
  induction hv with
  | stuck head spine h =>
    intro fuel globals local_size hf
    have hb : vbound (.stuck head spine) = spine.length + 2 := by simp [vbound]
    rw [hb] at hf
    cases fuel with
    | zero => omega
    | succ f =>
      show is_equal_stuck_value f globals local_size (head, spine) (head, spine) = .ok true
      exact is_equal_stuck_value_refl head spine f globals local_size h (by omega)
  | typeType level =>
    intro fuel globals local_size hf
    cases fuel with
    | zero => simp [vbound] at hf
    | succ f =>
      show (.ok (decide (level = level)) : M Bool) = .ok true
      simp
  | arrayTerm entries h ih =>
    intro fuel globals local_size hf
    have hb : vbound (.arrayTerm entries) = vboundList entries + 1 := by simp [vbound]
    rw [hb] at hf
    cases fuel with
    | zero => omega
    | succ f =>
      have step : is_equal (f+1) globals local_size (.arrayTerm entries) (.arrayTerm entries)
          = if entries.length ≠ entries.length then (.ok false : M Bool)
            else is_equal_values f globals local_size entries entries := rfl
      rw [step, if_neg (by simp)]
      exact is_equal_values_refl entries globals local_size ih f (by omega)
  | listTerm entries h ih =>
    intro fuel globals local_size hf
    have hb : vbound (.listTerm entries) = vboundList entries + 1 := by simp [vbound]
    rw [hb] at hf
    cases fuel with
    | zero => omega
    | succ f =>
      have step : is_equal (f+1) globals local_size (.listTerm entries) (.listTerm entries)
          = if entries.length ≠ entries.length then (.ok false : M Bool)
            else is_equal_values f globals local_size entries entries := rfl
      rw [step, if_neg (by simp)]
      exact is_equal_values_refl entries globals local_size ih f (by omega)
  | constant c =>
    intro fuel globals local_size hf
    cases fuel with
    | zero => simp [vbound] at hf
    | succ f =>
      show (.ok (decide (c = c)) : M Bool) = .ok true
      simp
  | error =>
    intro fuel globals local_size hf
    cases fuel with
    | zero => simp [vbound] at hf
    | succ f => rfl

/-- C5 (counterexample): a constant compared with itself under is_subtype
yields false, where the claim requires reflexivity of is_subtype on
non-type values. -/
theorem is_subtype_constant_refl_false :
    is_subtype 5 [] 0 (.constant (.u32 3)) (.constant (.u32 3)) = .ok false := rfl

/-- C5 (amended): is_equal is reflexive on first-order values (stuck
values with record spines, type universes, arrays and lists of such
values, constants, Error), and holds on concrete function and record
terms; is_subtype is reflexive on the type of types, but on every
non-type value (constants, function terms, record terms, arrays and
lists) is_subtype of the value with itself returns false, since the
source compares only type formers. -/
theorem reflexivity_scope :
    (∀ v : Value, FirstOrder v → ∀ fuel globals local_size, vbound v < fuel →
      is_equal fuel globals local_size v v = .ok true)
    ∧ is_equal 10 [] 0 c5Fun c5Fun = .ok true
    ∧ is_equal 10 [] 0 c5Rec c5Rec = .ok true
    ∧ (∀ fuel globals local_size level,
        is_subtype (fuel+1) globals local_size (.typeType level) (.typeType level) = .ok true)
    ∧ (∀ fuel globals local_size c,
        is_subtype (fuel+1) globals local_size (.constant c) (.constant c) = .ok false)
    ∧ (∀ fuel globals local_size name closure,
        is_subtype (fuel+1) globals local_size (.functionTerm name closure)
          (.functionTerm name closure) = .ok false)
    ∧ (∀ fuel globals local_size entries,
        is_subtype (fuel+1) globals local_size (.arrayTerm entries)
          (.arrayTerm entries) = .ok false)
    ∧ (∀ fuel globals local_size entries,
        is_subtype (fuel+1) globals local_size (.listTerm entries)
          (.listTerm entries) = .ok false)
    ∧ (∀ fuel globals local_size closure,
        is_subtype (fuel+1) globals local_size (.recordTerm closure)
          (.recordTerm closure) = .ok false) := by
  refine ⟨is_equal_refl_first_order, rfl, rfl, ?_, ?_, ?_, ?_, ?_, ?_⟩
  · intro fuel globals local_size level
    show (.ok (decide (level ≤ level)) : M Bool) = .ok true
    simp
  · intro fuel globals local_size c
    rfl
  · intro fuel globals local_size name closure
    rfl
  · intro fuel globals local_size entries
    rfl
  · intro fuel globals local_size entries
    rfl
  · intro fuel globals local_size closure
    cases closure
    rfl

/-- Witness for C5 on a constant, with fuel 2. -/
theorem reflexivity_scope_witness :
    is_equal 2 [] 0 (.constant (.u8 0)) (.constant (.u8 0)) = .ok true :=
  reflexivity_scope.1 (.constant (.u8 0)) (.constant (.u8 0)) 2 [] 0 (by simp [vbound])

end Pikelet
